import Mathlib

/-!
# Verification of the Taxi Expense Justification app (`src/streamlit_app.py`)

Shallow embedding of the record model, validator, submission handler,
HTML renderer, direct PDF renderer and CSV export of
`src/streamlit_app.py`, together with proofs settling the frozen claims.

Conventions of the embedding:

* Python strings are Lean `String`s; `str.strip()` is `pyStrip`
  (ASCII whitespace; the Python version also strips rarer Unicode
  whitespace, which no claim depends on).
* Python floats are embedded as `ℚ`; `round(x, 2)` is `round2`
  (round half to even, as Python rounds).  Where the code formats a
  float with `str`/f-strings, the embedding uses `formatDec`, the
  shortest-decimal rendering that `str` produces on the values in
  scope here (claims that need this are stated under a well-formedness
  hypothesis restricting numbers to the non-scientific-notation range).
* `datetime.time` values are `TimeHM` (`Fin 24` hour, `Fin 60` minute,
  exactly the ranges `datetime.time` guarantees); `date.isoformat()`
  output is carried as a `String` field of the form input.
* Fallible code returns `Except`/`Option`; `st.session_state.records`
  is an explicit `List Record` threaded through `handle_submission`.
-/

/-! ## Small string utilities -/

/-- ASCII whitespace, the characters `str.strip()` removes on the text in
scope here (space, tab, newline, carriage return, vertical tab, form feed). -/
def isWsChar (c : Char) : Bool :=
  c = ' ' || c = '\t' || c = '\n' || c = '\r' || c = '\x0b' || c = '\x0c'

/-- `str.strip()` on the character list: drop whitespace from both ends. -/
def pyStripChars (l : List Char) : List Char :=
  ((l.dropWhile isWsChar).reverse.dropWhile isWsChar).reverse

/-- Embedding of Python `str.strip()`. -/
def pyStrip (s : String) : String :=
  ⟨pyStripChars s.data⟩

/-- Python truthiness-style fallback `s or "N/A"` used by the renderers. -/
def pyOrNA (s : String) : String :=
  if s = "" then "N/A" else s

/-! ## Decimal rendering and parsing of embedded floats -/

/-- Fuel-driven multiplicity of `p` in `n` (how many times `p` divides `n`). -/
def factCntF (p : ℕ) : ℕ → ℕ → ℕ
  | 0, _ => 0
  | fuel + 1, n => if 2 ≤ p ∧ 0 < n ∧ n % p = 0 then factCntF p fuel (n / p) + 1 else 0

/-- Multiplicity of `p` in `n`. -/
def factCnt (p n : ℕ) : ℕ := factCntF p n n

/-- Number of decimal places of a rational with 2-5-smooth denominator: the
least `k` with `q * 10 ^ k` integral. -/
def decExp (q : ℚ) : ℕ := max (factCnt 2 q.den) (factCnt 5 q.den)

/-- Little-endian decimal digits of `n`, with fuel. -/
def digitsRevF : ℕ → ℕ → List ℕ
  | 0, _ => []
  | fuel + 1, n => if n = 0 then [] else n % 10 :: digitsRevF fuel (n / 10)

/-- Digit character for a digit value. -/
def digitChar (d : ℕ) : Char := Char.ofNat (48 + d)

/-- Most-significant-first decimal digit characters of `n` (empty for 0). -/
def digitsMSB (n : ℕ) : List Char :=
  ((digitsRevF n n).map digitChar).reverse

/-- Decimal digit characters of `n`, left-padded with zeros to width `w`. -/
def digitsPadded (n w : ℕ) : List Char :=
  let d := digitsMSB n
  List.replicate (w - d.length) '0' ++ d

/-- `str()` of a nonnegative embedded float: minimal decimal digits, always
with a decimal point (`str(45.0) = "45.0"`, `str(45.5) = "45.5"`).  Faithful
to Python `str` for nonnegative decimals in `[1e-4, 1e16)` and `0`, the
range where `str` does not switch to scientific notation. -/
def formatDec (q : ℚ) : String :=
  let k := decExp q
  let ds := digitsPadded (q.num.toNat * (10 ^ k / q.den)) (k + 1)
  if k = 0 then ⟨ds⟩ ++ ".0" else ⟨ds.take (ds.length - k)⟩ ++ "." ++ ⟨ds.drop (ds.length - k)⟩

/-- Leading decimal digits of a character list, as digit values, with the
unconsumed remainder. -/
def takeDigits : List Char → (List ℕ × List Char)
  | [] => ([], [])
  | c :: cs =>
    if c.isDigit then
      let p := takeDigits cs
      ((c.toNat - 48) :: p.1, p.2)
    else ([], c :: cs)

/-- Value of a most-significant-first digit list. -/
def foldD (ds : List ℕ) : ℕ := ds.foldl (fun a d => 10 * a + d) 0

/-- Parse a plain nonnegative decimal numeral (`"45"`, `"45.5"`), the inverse
of `formatDec` on its range.  Modelled from the spec: the round-trip property
speaks of "parsing back" the CSV, and the repository has no parser of its
own, so this follows the standard reading of a decimal numeral. -/
def parseDecChars (l : List Char) : Option ℚ :=
  let p := takeDigits l
  match p.2 with
  | [] => if p.1 = [] then none else some ((foldD p.1 : ℤ) : ℚ)
  | '.' :: rest =>
    let f := takeDigits rest
    if f.2 = [] ∧ p.1 ≠ [] ∧ f.1 ≠ [] then
      some (((foldD p.1 * 10 ^ f.1.length + foldD f.1 : ℤ) : ℚ) / ((10 : ℚ) ^ f.1.length))
    else none
  | _ => none

/-- Parse a decimal numeral from a string. -/
def parseDecStr (s : String) : Option ℚ := parseDecChars s.data

/-- Round half to even to an integer, as Python `round` does. -/
def roundHalfEven (q : ℚ) : ℤ :=
  let f := ⌊q⌋
  if q - f < 1 / 2 then f
  else if (1 : ℚ) / 2 < q - f then f + 1
  else if f % 2 = 0 then f else f + 1

/-- Embedding of Python `round(x, 2)` (src line 363). -/
def round2 (q : ℚ) : ℚ := (roundHalfEven (q * 100) : ℚ) / 100

/-! ## Data model: form input and stored record -/

/-- An uploaded receipt file as the submission handler sees it
(`receipt_file.name`, `.size`, `.type`; src lines 312-317, 347, 376). -/
structure UploadedFile where
  name : String
  size : ℕ
  type : Option String
  deriving Repr, DecidableEq

/-- A wall-clock time as `datetime.time` guarantees it (hour in `0..23`,
minute in `0..59`); `strftime("%H:%M")` is `hhmm` below. -/
structure TimeHM where
  hour : Fin 24
  minute : Fin 60
  deriving Repr, DecidableEq

/-- Two-digit zero-padded decimal (`strftime` `%H`/`%M` field). -/
def pad2 (n : ℕ) : String :=
  if n < 10 then ⟨'0' :: digitsPadded n 1⟩ else ⟨digitsMSB n⟩

/-- `t.strftime("%H:%M")` (src lines 360, 373, 374). -/
def hhmm (t : TimeHM) : String := pad2 t.hour.val ++ ":" ++ pad2 t.minute.val

/-- The raw widget values the form hands to the submission block
(src lines 252-328).  Dates are carried already in `isoformat()` form,
which is all the handler uses of them.  `fare_amount` is `Option` to keep
`validate_money`'s `is not None` guard meaningful. -/
structure FormInput where
  employee_name : String
  date_submission : String
  date_of_travel : String
  from_location : String
  fare_amount : Option ℚ
  receipt_number : String
  time_of_travel : TimeHM
  to_location : String
  license_plate : String
  selected : List String
  reason_other : String
  client : String
  equipment : String
  service_type : String
  work_description : String
  receipt_type : String
  receipt_file : Option UploadedFile
  start_time : Option TimeHM
  end_time : Option TimeHM
  distance_km : ℚ

/-- One stored expense record, with the fields of the dict built at
src lines 354-377, in construction order.  `distance_km` is `none` where
Python stores the empty string `""` (absent distance), `some d` where it
stores the float `d`; the string fields that Python stores as `""` for
absent optionals are plain `String`s here. -/
structure Record where
  employee_name : String
  department : String
  position : String
  submission_date : String
  date_of_travel : String
  time_of_travel : String
  from_location : String
  to_location : String
  fare_amount : ℚ
  receipt_number : String
  primary_reasons : List String
  reason_other : String
  client : String
  service_type : String
  equipment : String
  work_description : String
  receipt_type : String
  license_plate : String
  start_time : String
  end_time : String
  distance_km : Option ℚ
  uploaded_receipt_name : String
  deriving Repr, DecidableEq

/-! ## Validator (src lines 13-14 and 331-348) -/

/-- Embedding of `validate_money` (src lines 13-14):
`amount is not None and amount >= 0`. -/
def validate_money : Option ℚ → Bool
  | none => false
  | some a => decide (0 ≤ a)

/-- The oversized-upload test of src line 347:
`receipt_file and receipt_file.size > 8 * 1024 * 1024`. -/
def oversized : Option UploadedFile → Bool
  | none => false
  | some f => decide (8 * 1024 * 1024 < f.size)

/-- Embedding of the submission validation block (src lines 332-348): each
check appends its message to `errors` independently; the result is the
concatenation in source order. -/
def validate (i : FormInput) : List String :=
  (if pyStrip i.employee_name = "" then ["Employee Name is required."] else [])
    ++ (if pyStrip i.from_location = "" then ["Pick-up Location is required."] else [])
    ++ (if pyStrip i.to_location = "" then ["Destination is required."] else [])
    ++ (if !validate_money i.fare_amount then ["Fare amount must be a non-negative number."] else [])
    ++ (if i.selected = [] then ["Select at least one primary reason."] else [])
    ++ (if "Other" ∈ i.selected ∧ pyStrip i.reason_other = "" then
          ["Please describe the \x27Other\x27 reason."] else [])
    ++ (if pyStrip i.work_description = "" then
          ["Brief description of work/purpose is required."] else [])
    ++ (if oversized i.receipt_file then
          ["Receipt file is too large (>8MB). Please upload a smaller file."] else [])

/-- Following the spec (§3 "Invariants"), one Boolean per invariant, `true`
when the invariant holds on the candidate input: fare amount ≥ 0 (on the
submitted value; an absent value has no nonnegative fare), at least one
reason tag, "Other" implies non-empty other-justification, the four
required text fields non-empty after trimming, and the uploaded file within
the 8 MiB ceiling.  This is the spec-side list compared against `validate`. -/
def specInvariantsHold (i : FormInput) : List Bool :=
  [ decide (∃ a, i.fare_amount = some a ∧ 0 ≤ a)
  , decide (i.selected ≠ [])
  , decide ("Other" ∈ i.selected → pyStrip i.reason_other ≠ "")
  , decide (pyStrip i.employee_name ≠ "")
  , decide (pyStrip i.from_location ≠ "")
  , decide (pyStrip i.to_location ≠ "")
  , decide (pyStrip i.work_description ≠ "")
  , decide (∀ f, i.receipt_file = some f → f.size ≤ 8 * 1024 * 1024) ]

/-- Number of §3 invariants the candidate input violates. -/
def specViolationCount (i : FormInput) : ℕ :=
  (specInvariantsHold i).count false

/-! ## Record construction and submission handling (src lines 331-404) -/

/-- Embedding of the record dict construction (src lines 354-377), executed
only on the validated branch.  `i.fare_amount.getD 0` stands for the float
the handler reads there; validation guarantees presence on this branch. -/
def mkRecord (i : FormInput) : Record where
  employee_name := pyStrip i.employee_name
  department := "Service Engineering"
  position := "Service Engineer"
  submission_date := i.date_submission
  date_of_travel := i.date_of_travel
  time_of_travel := hhmm i.time_of_travel
  from_location := pyStrip i.from_location
  to_location := pyStrip i.to_location
  fare_amount := round2 (i.fare_amount.getD 0)
  receipt_number := pyStrip i.receipt_number
  primary_reasons := i.selected
  reason_other := pyStrip i.reason_other
  client := pyStrip i.client
  service_type := i.service_type
  equipment := pyStrip i.equipment
  work_description := pyStrip i.work_description
  receipt_type := i.receipt_type
  license_plate := pyStrip i.license_plate
  start_time := match i.start_time with | some t => hhmm t | none => ""
  end_time := match i.end_time with | some t => hhmm t | none => ""
  distance_km := if i.distance_km = 0 then none else some i.distance_km
  uploaded_receipt_name := match i.receipt_file with | some f => f.name | none => ""

/-- The message of src line 105-106's failure: the module imports only
`datetime`, `pandas`, `streamlit` and `fpdf` (src lines 1-4), so the name
`Path` used at src line 106 is unbound and every call to `pdf_from_record`
raises this `NameError` before any font or drawing code runs. -/
def nameErrMsg : String := "NameError: name \x27Path\x27 is not defined"

/-- Embedding of `pdf_from_record` (src lines 103-188) as the fallible
renderer the caller sees.  Its first statement `Path("NotoSans-Regular.ttf")`
references the unbound name `Path`, so the call always raises `NameError`;
no branch of the function body is reachable.  (The text the body would have
drawn is modelled separately by `pdfDrawLines`.) -/
def pdf_from_record (_ : Record) : Except String (List String) :=
  .error nameErrMsg

/-- Result of one submission interaction: the session store after it, the
validation errors shown, and the warning shown if PDF generation failed. -/
structure StepOut where
  store : List Record
  errors : List String
  warning : Option String
  deriving Repr

/-- Embedding of the submission handler (src lines 331-404): validate; on
any error only report the errors; otherwise build the record, append it to
`st.session_state.records`, then attempt PDF generation inside
`try/except`, downgrading a raised exception to a warning
(`"PDF generation failed: ..."`, src line 404). -/
def handle_submission (store : List Record) (i : FormInput) : StepOut :=
  let errors := validate i
  if errors.isEmpty then
    let record := mkRecord i
    let store2 := store ++ [record]
    match pdf_from_record record with
    | .ok _ => { store := store2, errors := [], warning := none }
    | .error e => { store := store2, errors := [], warning := some ("PDF generation failed: " ++ e) }
  else
    { store := store, errors := errors, warning := none }

/-- Session stores reachable from the empty initial store
(`init_state`, src lines 9-11) by submissions. -/
inductive Reachable : List Record → Prop
  | nil : Reachable []
  | step (s : List Record) (i : FormInput) :
      Reachable s → Reachable (handle_submission s i).store

/-! ## HTML renderer (`to_printable_html`, src lines 16-95) -/

/-- Replace each newline with `"<br>"`, as
`desc_raw.replace("\n", "<br>")` does (src line 34). -/
def replNl : List Char → List Char
  | [] => []
  | c :: cs => if c = '\n' then '<' :: 'b' :: 'r' :: '>' :: replNl cs else c :: replNl cs

/-- The `desc_html` value of src lines 33-34. -/
def descHtml (r : Record) : String := ⟨replNl r.work_description.data⟩

/-- The `reasons_html` value of src line 28: one inline badge per reason. -/
def reasonsHtml (r : Record) : String :=
  String.join (r.primary_reasons.map fun x => "<span class=\"badge\">" ++ x ++ "</span>")

/-- The `equip` value of src line 29:
`(row.get("equipment") or "").strip() or "N/A"`. -/
def equipDisplay (r : Record) : String := pyOrNA (pyStrip r.equipment)

/-- The `distance_str` value of src lines 31-32: `f"{distance} km"` when a
distance was stored, else `"N/A"`. -/
def distanceDisplay (r : Record) : String :=
  match r.distance_km with
  | some d => formatDec d ++ " km"
  | none => "N/A"

/-- The `styles` literal of src lines 17-27. -/
def htmlStyles : String :=
  "\n    <style>\n      .print-card \x7bfont-family: Arial, sans-serif; max-width: 900px; margin: 0 auto; color: #222;\x7d\n      .print-card h2 \x7bmargin-bottom: 0.2rem;\x7d\n      .grid \x7bdisplay: grid; grid-template-columns: 1fr 1fr; gap: 8px 24px;\x7d\n      .section \x7bborder-top: 1px solid #ddd; margin-top: 16px; padding-top: 12px;\x7d\n      .mono \x7bfont-family: ui-monospace, SFMono-Regular, Menlo, Consolas, \"Liberation Mono\", monospace; white-space: pre-wrap;\x7d\n      .badge \x7bdisplay:inline-block; padding:2px 6px; border:1px solid #999; border-radius:6px; margin:2px 6px 2px 0; font-size:12px;\x7d\n      .small \x7bfont-size: 12px; color: #555;\x7d\n    </style>\n    "

/-- The equipment cell of the Work-details grid (src line 75). -/
def htmlEquipDiv (r : Record) : String :=
  "<div><strong>Equipment (if any):</strong> " ++ equipDisplay r ++ "</div>"

/-- The brief-description block (src line 79): the raw description with
newlines replaced by `<br>`, inside the `white-space: pre-wrap` container. -/
def htmlDescBlock (r : Record) : String :=
  "<div class=\"mono\">" ++ descHtml r ++ "</div>"

/-- The license-plate cell of the Receipt-info grid (src line 87): the raw
stored value is interpolated with no `"N/A"` fallback. -/
def htmlPlateDiv (r : Record) : String :=
  "<div><strong>Taxi License Plate:</strong> " ++ r.license_plate ++ "</div>"

/-- The start-time cell (src line 88), likewise with no fallback. -/
def htmlStartDiv (r : Record) : String :=
  "<div><strong>Start Time:</strong> " ++ r.start_time ++ "</div>"

/-- The end-time cell (src line 89). -/
def htmlEndDiv (r : Record) : String :=
  "<div><strong>End Time:</strong> " ++ r.end_time ++ "</div>"

/-- The distance cell (src line 90), showing `distance_str`. -/
def htmlDistanceDiv (r : Record) : String :=
  "<div><strong>Distance:</strong> " ++ distanceDisplay r ++ "</div>"

/-- The other-details line of the Justification section (src line 67). -/
def htmlOtherDiv (r : Record) : String :=
  "<div><strong>Other (details):</strong> " ++ pyOrNA r.reason_other ++ "</div>"

/-- The receipt-number cell of the Trip-details grid (src line 60). -/
def htmlReceiptNumDiv (r : Record) : String :=
  "<div><strong>Receipt Number:</strong> " ++ r.receipt_number ++ "</div>"

/-- Employee-information section of the template (src lines 42-50). -/
def htmlEmployeeSec (r : Record) : String :=
  "\n      <div class=\"section\">\n        <h3>Employee information</h3>\n        <div class=\"grid\">\n          <div><strong>Employee Name:</strong> "
    ++ r.employee_name
    ++ "</div>\n          <div><strong>Department:</strong> Service Engineering</div>\n          <div><strong>Position:</strong> Service Engineer</div>\n          <div><strong>Date of Submission:</strong> "
    ++ r.submission_date
    ++ "</div>\n        </div>\n      </div>\n"

/-- Trip-details section of the template (src lines 52-62). -/
def htmlTripSec (r : Record) : String :=
  "\n      <div class=\"section\">\n        <h3>Trip details</h3>\n        <div class=\"grid\">\n          <div><strong>Date of Travel:</strong> "
    ++ r.date_of_travel
    ++ "</div>\n          <div><strong>Time of Travel:</strong> "
    ++ r.time_of_travel
    ++ "</div>\n          <div><strong>From:</strong> "
    ++ r.from_location
    ++ "</div>\n          <div><strong>To:</strong> "
    ++ r.to_location
    ++ "</div>\n          <div><strong>Taxi Fare Amount:</strong> HK$ "
    ++ formatDec r.fare_amount
    ++ "</div>\n          "
    ++ htmlReceiptNumDiv r
    ++ "\n        </div>\n      </div>\n"

/-- Justification section of the template (src lines 64-68). -/
def htmlJustSec (r : Record) : String :=
  "\n      <div class=\"section\">\n        <h3>Justification</h3>\n        <div>"
    ++ pyOrNA (reasonsHtml r)
    ++ "</div>\n        "
    ++ htmlOtherDiv r
    ++ "\n      </div>\n"

/-- Work-details section of the template (src lines 70-81). -/
def htmlWorkSec (r : Record) : String :=
  "\n      <div class=\"section\">\n        <h3>Work details</h3>\n        <div class=\"grid\">\n          <div><strong>Client/Customer:</strong> "
    ++ r.client
    ++ "</div>\n          <div><strong>Type of Service:</strong> "
    ++ r.service_type
    ++ "</div>\n          "
    ++ htmlEquipDiv r
    ++ "\n        </div>\n        <div style=\"margin-top:8px;\">\n          <strong>Brief Description:</strong>\n          "
    ++ htmlDescBlock r
    ++ "\n        </div>\n      </div>\n"

/-- Receipt-info section of the template (src lines 83-92). -/
def htmlReceiptSec (r : Record) : String :=
  "\n      <div class=\"section\">\n        <h3>Receipt info</h3>\n        <div class=\"grid\">\n          <div><strong>Receipt Attached:</strong> "
    ++ r.receipt_type
    ++ "</div>\n          "
    ++ htmlPlateDiv r
    ++ "\n          "
    ++ htmlStartDiv r
    ++ "\n          "
    ++ htmlEndDiv r
    ++ "\n          "
    ++ htmlDistanceDiv r
    ++ "\n        </div>\n      </div>\n"

/-- Embedding of `to_printable_html` (src lines 16-95): the f-string
template, transcribed section-wise as the concatenation of its literal
fragments and interpolated values in source order. -/
def to_printable_html (r : Record) : String :=
  "\n    " ++ htmlStyles
    ++ "\n    <div class=\"print-card\">\n      <h2>Taxi Expense Justification Form</h2>\n      <div class=\"small\">Montsmed HK</div>\n"
    ++ htmlEmployeeSec r
    ++ htmlTripSec r
    ++ htmlJustSec r
    ++ htmlWorkSec r
    ++ htmlReceiptSec r
    ++ "\n    </div>\n    "

/-! ## Direct PDF draw sequence (src lines 114-188)

`pdf_from_record` itself never reaches this code (`NameError` at line 106);
`pdfDrawLines` models the sequence of text lines its draw calls would emit,
for analysis of that draw code.  `multi_cell` renders each `\n` of its text
as a line break (further width-driven wrapping only subdivides lines, so it
is not modelled); `cell` emits a single line. -/

/-- Split at newlines, as `multi_cell` does with explicit line breaks
(`"".split` behaviour: the empty text is one empty line). -/
def splitNl : List Char → List (List Char)
  | [] => [[]]
  | c :: cs =>
    if c = '\n' then [] :: splitNl cs
    else
      match splitNl cs with
      | [] => [[c]]
      | h :: t => (c :: h) :: t

/-- String version of `splitNl`. -/
def splitNlStr (s : String) : List String := (splitNl s.data).map fun l => ⟨l⟩

/-- The `kv` helper of src lines 132-137: a bold `label:` line, then the
value in a `multi_cell`, with `"N/A"` substituted for an empty value. -/
def kvLines (label value : String) : List String :=
  (label ++ ":") :: splitNlStr (if value ≠ "" then value else "N/A")

/-- The lines the draw calls of src lines 139-186 would emit, in order. -/
def pdfDrawLines (r : Record) : List String :=
  ["Taxi Expense Justification Form", "Montsmed HK"]
    ++ ["Employee information"]
    ++ kvLines "Employee Name" r.employee_name
    ++ kvLines "Department" "Service Engineering"
    ++ kvLines "Position" "Service Engineer"
    ++ kvLines "Date of Submission" r.submission_date
    ++ ["Trip details"]
    ++ kvLines "Date of Travel" r.date_of_travel
    ++ kvLines "Time of Travel" r.time_of_travel
    ++ kvLines "From" r.from_location
    ++ kvLines "To" r.to_location
    ++ kvLines "Taxi Fare Amount" ("HK$ " ++ formatDec r.fare_amount)
    ++ kvLines "Receipt Number" r.receipt_number
    ++ ["Justification"]
    ++ kvLines "Primary Reasons" (pyOrNA (String.intercalate ", " r.primary_reasons))
    ++ kvLines "Other (details)" (pyOrNA r.reason_other)
    ++ ["Work details"]
    ++ kvLines "Client/Customer" r.client
    ++ kvLines "Type of Service" r.service_type
    ++ kvLines "Equipment (if any)" (pyOrNA r.equipment)
    ++ ["Brief Description:"]
    ++ splitNlStr (pyOrNA r.work_description)
    ++ ["Receipt info"]
    ++ kvLines "Receipt Attached" r.receipt_type
    ++ kvLines "Taxi License Plate" r.license_plate
    ++ kvLines "Start Time" r.start_time
    ++ kvLines "End Time" r.end_time
    ++ kvLines "Distance" (distanceDisplay r)

/-! ## CSV export (`record_to_csv_bytes`, src lines 97-101) -/

/-- Python `str()` of a list of strings (`repr` per element), restricted to
elements free of quotes, backslashes and control characters — which holds
for the fixed reason-tag vocabulary this is applied to.  This is how
`pandas` stringifies the `primary_reasons` column. -/
def pyStrList (l : List String) : String :=
  "[" ++ String.intercalate ", " (l.map fun s => "\x27" ++ s ++ "\x27") ++ "]"

/-- The CSV cell text of the distance column: the stored float via `str`,
or the stored empty string. -/
def distCell (r : Record) : String :=
  match r.distance_km with
  | some d => formatDec d
  | none => ""

/-- The column names of `pd.DataFrame(records)`: the record dict keys in
construction order (src lines 354-377). -/
def csvHeader : List String :=
  [ "employee_name", "department", "position", "submission_date", "date_of_travel"
  , "time_of_travel", "from_location", "to_location", "fare_amount", "receipt_number"
  , "primary_reasons", "reason_other", "client", "service_type", "equipment"
  , "work_description", "receipt_type", "license_plate", "start_time", "end_time"
  , "distance_km", "uploaded_receipt_name" ]

/-- Following the spec (§6 "CSV export"): the header the spec describes,
"record field names (excluding the reason-tag collection)". -/
def specHeaderWithoutReasons : List String :=
  csvHeader.filter (fun s => s ≠ "primary_reasons")

/-- The textual cells of one record's CSV row, one per column of
`csvHeader`: string fields as stored, floats via `str`, the reason-tag
list via Python `str()` of the list. -/
def cellsOf (r : Record) : List String :=
  [ r.employee_name, r.department, r.position, r.submission_date, r.date_of_travel
  , r.time_of_travel, r.from_location, r.to_location, formatDec r.fare_amount, r.receipt_number
  , pyStrList r.primary_reasons, r.reason_other, r.client, r.service_type, r.equipment
  , r.work_description, r.receipt_type, r.license_plate, r.start_time, r.end_time
  , distCell r, r.uploaded_receipt_name ]

/-- `QUOTE_MINIMAL`: a cell is quoted iff it contains the delimiter, the
quote character, or a line-terminator character. -/
def needsQuote (l : List Char) : Bool :=
  l.any fun c => c = ',' || c = '"' || c = '\n' || c = '\r'

/-- Double each quote character (CSV quoting of embedded quotes). -/
def escQ : List Char → List Char
  | [] => []
  | c :: cs => if c = '"' then '"' :: '"' :: escQ cs else c :: escQ cs

/-- Encode one CSV cell with minimal quoting, as `to_csv` does. -/
def encCell (l : List Char) : List Char :=
  if needsQuote l then '"' :: (escQ l ++ ['"']) else l

/-- Encode one CSV row: cells joined by the comma delimiter. -/
def encRow : List (List Char) → List Char
  | [] => []
  | [c] => encCell c
  | c :: cs => encCell c ++ ',' :: encRow cs

/-- Encode rows, each terminated by the `"\n"` line terminator
`to_csv` uses. -/
def encRows : List (List (List Char)) → List Char
  | [] => []
  | row :: rows => encRow row ++ '\n' :: encRows rows

/-- The CSV text of a list of records, as `pd.DataFrame(records).to_csv
(index=False)` produces it: header row of all column names, then one row
per record in list order, minimally quoted, newline-terminated. -/
def csvString (records : List Record) : String :=
  ⟨encRows ((csvHeader :: records.map cellsOf).map (·.map String.data))⟩

/-- Embedding of `record_to_csv_bytes` (src lines 97-101): `b""` for the
empty list, else the UTF-8 encoding of the dataframe's CSV text. -/
def record_to_csv_bytes (records : List Record) : ByteArray :=
  if records = [] then ByteArray.empty else (csvString records).toUTF8

/-! ## CSV parsing (modelled from the spec)

Modelled from the spec: §8's round-trip property speaks of a record
"written to the CSV export and parsed back", and the repository contains
no CSV reader, so the reader below follows the standard (RFC-4180 style)
reading of the format `to_csv` emits: comma-delimited cells, quoted cells
with doubled embedded quotes, rows terminated by newlines. -/

/-- Scan an unquoted cell: everything up to the next delimiter or row
terminator. -/
def splitCellUnquoted : List Char → (List Char × List Char)
  | [] => ([], [])
  | c :: cs =>
    if c = ',' ∨ c = '\n' then ([], c :: cs)
    else
      let p := splitCellUnquoted cs
      (c :: p.1, p.2)

/-- Scan the body of a quoted cell (after the opening quote): a doubled
quote is a literal quote, a single quote closes the cell. -/
def splitCellQuoted : List Char → Option (List Char × List Char)
  | [] => none
  | c :: cs =>
    if c = '"' then
      match cs with
      | c2 :: cs2 =>
        if c2 = '"' then (splitCellQuoted cs2).map fun p => ('"' :: p.1, p.2)
        else some ([], cs)
      | [] => some ([], cs)
    else (splitCellQuoted cs).map fun p => (c :: p.1, p.2)

/-- Parse the cells of one row (fuel-driven; one unit of fuel per cell),
returning the cells and the input after the row's terminator. -/
def parseCellsF : ℕ → List Char → Option (List (List Char) × List Char)
  | 0, _ => none
  | fuel + 1, input =>
    let cellRest : Option (List Char × List Char) :=
      match input with
      | c :: rest0 => if c = '"' then splitCellQuoted rest0 else some (splitCellUnquoted input)
      | [] => some (splitCellUnquoted input)
    match cellRest with
    | none => none
    | some (cell, rest) =>
      match rest with
      | c2 :: rest2 =>
        if c2 = ',' then
          match parseCellsF fuel rest2 with
          | none => none
          | some (cells, rem) => some (cell :: cells, rem)
        else if c2 = '\n' then some ([cell], rest2)
        else none
      | [] => some ([cell], [])

/-- Parse one row with sufficient fuel. -/
def parseCells (input : List Char) : Option (List (List Char) × List Char) :=
  parseCellsF (input.length + 1) input

/-- Parse all rows (fuel-driven; one unit of fuel per row). -/
def parseRowsF : ℕ → List Char → Option (List (List (List Char)))
  | 0, _ => none
  | fuel + 1, input =>
    if input = [] then some []
    else
      match parseCells input with
      | none => none
      | some (row, rest) =>
        match parseRowsF fuel rest with
        | none => none
        | some rows => some (row :: rows)

/-- Parse a CSV text into its rows of cells. -/
def parseCSV (s : String) : Option (List (List String)) :=
  (parseRowsF (s.data.length + 1) s.data).map fun rows =>
    rows.map fun row => row.map fun l => (⟨l⟩ : String)

/-- Modelled from the spec: rebuild a record from one parsed CSV row (the
"parsed back" record of §8's round-trip property).  Every scalar column is
read back — strings as they stand, the fare and a present distance through
the decimal reader — while the reason-tag column is not reconstructed
(the flattening the spec names as the one lossy column); the parsed-back
record carries `[]` there. -/
def parseRecordRow : List String → Option Record
  | [en, de, po, sd, dt, tt, fl, tl, fa, rn, _pr, ro, cl, st, eq, wd, rt, lp, sti, eti, dk, urn] =>
    match parseDecStr fa with
    | none => none
    | some fare =>
      match (if dk = "" then some none else (parseDecStr dk).map some : Option (Option ℚ)) with
      | none => none
      | some dist =>
        some ⟨en, de, po, sd, dt, tt, fl, tl, fare, rn, [], ro, cl, st, eq, wd, rt, lp, sti, eti, dist, urn⟩
  | _ => none

/-- The scalar content of a record: every field except the reason-tag
collection (replaced by the empty list, as in a parsed-back row). -/
def scalarProj (r : Record) : Record := { r with primary_reasons := [] }

/-- All characters of a string printable ASCII without quote or backslash
(so Python `repr` writes it verbatim between plain quotes). -/
def reprSafe (s : String) : Bool :=
  s.data.all fun c => 32 ≤ c.toNat && c.toNat < 127 && c ≠ '\x27' && c ≠ '\\'

/-- A nonnegative embedded float in the range where Python `str` renders
plain (non-scientific) decimal notation: zero, or a 2-5-smooth-denominator
decimal in `[1e-4, 1e16)`. -/
def wfNum (q : ℚ) : Bool :=
  decide (0 ≤ q.num) && decide (q.num < 10 ^ 16 * (q.den : ℤ))
    && (decide (q.num = 0) || decide ((q.den : ℤ) ≤ 10000 * q.num))
    && decide (q.den ∣ 10 ^ decExp q)

/-- Well-formedness of a stored record for the CSV round-trip statements:
its numbers are in `str`'s plain-decimal range and its reason tags are
`repr`-safe (both hold for everything the form can store: fares are
`round(x, 2)` of a nonnegative widget float, distances are positive widget
floats, reasons come from the fixed vocabulary). -/
def wfRecord (r : Record) : Bool :=
  wfNum r.fare_amount
    && (match r.distance_km with | none => true | some d => wfNum d && decide (d ≠ 0))
    && r.primary_reasons.all reprSafe

/-! ## Substring relation used by the renderer claims -/

/-- `p` occurs contiguously inside `s`. -/
def Substr (p s : String) : Prop := p.data <:+: s.data

instance (p s : String) : Decidable (Substr p s) := by
  unfold Substr
  infer_instance

/-! ## Concrete inputs and records used by witnesses and counterexamples -/

/-- Scenario B of the spec: a fully valid submission (employee "Jane Doe",
Office → Client Site, fare 45.5, reason "Emergency Call", description
"Urgent repair"), optional fields left at their widget defaults. -/
def inputB : FormInput where
  employee_name := "Jane Doe"
  date_submission := "2026-10-12"
  date_of_travel := "2026-10-10"
  from_location := "Office"
  fare_amount := some (mkRat 91 2)
  receipt_number := ""
  time_of_travel := ⟨10, 30⟩
  to_location := "Client Site"
  license_plate := ""
  selected := ["Emergency Call"]
  reason_other := ""
  client := ""
  equipment := ""
  service_type := "Maintenance"
  work_description := "Urgent repair"
  receipt_type := "Electronic receipt attached"
  receipt_file := none
  start_time := none
  end_time := none
  distance_km := 0

/-- Scenario D of the spec: the same valid submission but with a 9 MiB
uploaded receipt. -/
def inputD : FormInput :=
  { inputB with receipt_file := some ⟨"receipt.pdf", 9 * 1024 * 1024, some "application/pdf"⟩ }

/-- A record with an embedded newline in the work description and in the
equipment text (Scenario E shape), built directly in stored form. -/
def recX : Record where
  employee_name := "Jane Doe"
  department := "Service Engineering"
  position := "Service Engineer"
  submission_date := "2026-10-12"
  date_of_travel := "2026-10-10"
  time_of_travel := "10:30"
  from_location := "Office"
  to_location := "Client Site"
  fare_amount := mkRat 91 2
  receipt_number := ""
  primary_reasons := ["Emergency Call"]
  reason_other := ""
  client := ""
  service_type := "Maintenance"
  equipment := "A\nB"
  work_description := "Line1\nLine2"
  receipt_type := "Electronic receipt attached"
  license_plate := ""
  start_time := ""
  end_time := ""
  distance_km := none
  uploaded_receipt_name := ""

/-- A record whose work description is active HTML markup. -/
def recM : Record := { recX with work_description := "<b>hi</b>", equipment := "" }

/-- A second well-formed record for the CSV round-trip witness, with a
comma and an embedded quote in a text field, two reason tags, a present
distance and HH:MM times. -/
def recC : Record where
  employee_name := "Sam Poe"
  department := "Service Engineering"
  position := "Service Engineer"
  submission_date := "2026-10-12"
  date_of_travel := "2026-10-11"
  time_of_travel := "09:05"
  from_location := "Office"
  to_location := "Club, \"Quoted\" wing"
  fare_amount := mkRat 29 4
  receipt_number := "R-9"
  primary_reasons := ["Equipment Transport", "Other"]
  reason_other := "Heavy kit"
  client := "ACME"
  service_type := "Repair"
  equipment := "Boxes"
  work_description := "Line1\nLine2"
  receipt_type := "Original taxi receipt attached"
  license_plate := "AB 1234"
  start_time := "09:00"
  end_time := "09:20"
  distance_km := some (mkRat 37 10)
  uploaded_receipt_name := "r.pdf"

/-- The stored record of Scenario B. -/
def recB : Record := mkRecord inputB


/-- A string of the exact `HH:MM` shape that `strftime("%H:%M")` produces:
two-digit zero-padded hour below 24 and minute below 60. -/
def isHHMMStr (s : String) : Prop :=
  ∃ h m, h < 24 ∧ m < 60 ∧ s = pad2 h ++ ":" ++ pad2 m

/-- The normalization invariant of stored records (claim C10): the nine
user-text fields are whitespace-trimmed (stripping again changes nothing),
the fare has at most two decimal places, and the time fields are `HH:MM`
strings — the optional ones possibly the empty string standing for an
absent value. -/
def NormalizedRecord (r : Record) : Prop :=
  pyStrip r.employee_name = r.employee_name ∧
  pyStrip r.from_location = r.from_location ∧
  pyStrip r.to_location = r.to_location ∧
  pyStrip r.receipt_number = r.receipt_number ∧
  pyStrip r.reason_other = r.reason_other ∧
  pyStrip r.client = r.client ∧
  pyStrip r.equipment = r.equipment ∧
  pyStrip r.work_description = r.work_description ∧
  pyStrip r.license_plate = r.license_plate ∧
  (r.fare_amount * 100).den = 1 ∧
  isHHMMStr r.time_of_travel ∧
  (r.start_time = "" ∨ isHHMMStr r.start_time) ∧
  (r.end_time = "" ∨ isHHMMStr r.end_time)

/-! # Theorems -/

/-! ## Generic string and substring lemmas -/

theorem strData_append (a b : String) : (a ++ b).data = a.data ++ b.data := rfl

theorem substr_mid (p x y : String) : Substr p (x ++ p ++ y) := by
  refine ⟨x.data, y.data, ?_⟩
  simp [Substr, strData_append]

theorem substr_appL {p x : String} (y : String) (h : Substr p x) : Substr p (x ++ y) := by
  obtain ⟨s, t, hst⟩ := h
  exact ⟨s, t ++ y.data, by simp [strData_append, ← hst, List.append_assoc]⟩

theorem substr_appR {p y : String} (x : String) (h : Substr p y) : Substr p (x ++ y) := by
  obtain ⟨s, t, hst⟩ := h
  exact ⟨x.data ++ s, t, by simp [strData_append, ← hst, List.append_assoc]⟩

theorem substr_trans {a b c : String} (h1 : Substr a b) (h2 : Substr b c) : Substr a c :=
  List.IsInfix.trans h1 h2

theorem infix_appL {α : Type} {p x : List α} (y : List α) (h : p <:+: x) : p <:+: x ++ y := by
  obtain ⟨s, t, hst⟩ := h
  exact ⟨s, t ++ y, by simp [← hst, List.append_assoc]⟩

theorem infix_appR {α : Type} {p y : List α} (x : List α) (h : p <:+: y) : p <:+: x ++ y := by
  obtain ⟨s, t, hst⟩ := h
  exact ⟨x ++ s, t, by simp [← hst, List.append_assoc]⟩

theorem infix_mid {α : Type} (p x y : List α) : p <:+: x ++ p ++ y :=
  ⟨x, y, rfl⟩

/-! ## `pyStrip` lemmas -/

theorem dropWhile_sfx {α : Type} (p : α → Bool) :
    ∀ l : List α, ∃ s, s ++ l.dropWhile p = l := by
  intro l
  induction l with
  | nil => exact ⟨[], rfl⟩
  | cons c cs ih =>
    by_cases h : p c
    · obtain ⟨s, hs⟩ := ih
      exact ⟨c :: s, by simp [List.dropWhile_cons, h, hs]⟩
    · exact ⟨[], by simp [List.dropWhile_cons, h]⟩

theorem head_dropWhile_not {α : Type} (p : α → Bool) :
    ∀ (l : List α) (a : α) (t : List α), l.dropWhile p = a :: t → p a = false := by
  intro l
  induction l with
  | nil => intro a t h; simp at h
  | cons c cs ih =>
    intro a t h
    by_cases hc : p c
    · exact ih a t (by simpa [List.dropWhile_cons, hc] using h)
    · rw [List.dropWhile_cons] at h
      simp [hc] at h
      rw [← h.1]
      simpa using hc

theorem dropWhileIdem {α : Type} (p : α → Bool) (l : List α) :
    (l.dropWhile p).dropWhile p = l.dropWhile p := by
  cases h : l.dropWhile p with
  | nil => simp
  | cons a t =>
    have := head_dropWhile_not p l a t h
    simp [List.dropWhile_cons, this]

theorem pyStripChars_idem (l : List Char) : pyStripChars (pyStripChars l) = pyStripChars l := by
  unfold pyStripChars
  set u := l.dropWhile isWsChar with hu
  set v := u.reverse.dropWhile isWsChar with hv
  have h1 : v.reverse.dropWhile isWsChar = v.reverse := by
    cases hm : v.reverse with
    | nil => simp
    | cons a t =>
      obtain ⟨s, hs⟩ := dropWhile_sfx isWsChar u.reverse
      have hu2 : u = v.reverse ++ s.reverse := by
        have h3 := congrArg List.reverse hs
        simpa [List.reverse_append, hv] using h3.symm
      have hua : l.dropWhile isWsChar = a :: (t ++ s.reverse) := by
        rw [← hu, hu2, hm]; simp
      have ha := head_dropWhile_not isWsChar l a _ hua
      simp [List.dropWhile_cons, ha]
  rw [h1, List.reverse_reverse]
  have h2 : v.dropWhile isWsChar = v := by
    rw [hv]; exact dropWhileIdem _ _
  rw [h2]

theorem pyStrip_idem (s : String) : pyStrip (pyStrip s) = pyStrip s :=
  congrArg String.mk (pyStripChars_idem s.data)

/-! ## Validator lemmas and Claim C1 -/

theorem spec_fare_eq (o : Option ℚ) :
    decide (∃ a, o = some a ∧ 0 ≤ a) = validate_money o := by
  cases o <;> simp [validate_money]

theorem spec_file_eq (o : Option UploadedFile) :
    decide (∀ f, o = some f → f.size ≤ 8 * 1024 * 1024) = !oversized o := by
  cases o with
  | none => simp [oversized]
  | some f =>
    simp only [oversized]
    rw [← decide_not, decide_eq_decide, Nat.not_lt]
    simp

/-- The eight messages of the validation block, in source order. -/
theorem validate_sublist (i : FormInput) :
    List.Sublist (validate i)
      [ "Employee Name is required.", "Pick-up Location is required.", "Destination is required."
      , "Fare amount must be a non-negative number.", "Select at least one primary reason."
      , "Please describe the \x27Other\x27 reason.", "Brief description of work/purpose is required."
      , "Receipt file is too large (>8MB). Please upload a smaller file." ] := by
  have blockSub : ∀ (c : Prop) [Decidable c] (m : String), List.Sublist (if c then [m] else []) [m] := by
    intro c _ m
    split
    · exact List.Sublist.refl _
    · exact List.nil_sublist _
  show List.Sublist (validate i)
    (["Employee Name is required."] ++ ["Pick-up Location is required."] ++ ["Destination is required."]
      ++ ["Fare amount must be a non-negative number."] ++ ["Select at least one primary reason."]
      ++ ["Please describe the \x27Other\x27 reason."] ++ ["Brief description of work/purpose is required."]
      ++ ["Receipt file is too large (>8MB). Please upload a smaller file."])
  exact ((((((((blockSub _ _).append (blockSub _ _)).append (blockSub _ _)).append
    (blockSub _ _)).append (blockSub _ _)).append (blockSub _ _)).append
    (blockSub _ _)).append (blockSub _ _))

/-- Each validation block contributes its message exactly when its check
fires, so the length of the error list is the sum of one indicator per
check; matched one-for-one against the §3 invariant list. -/
theorem validate_length_eq (i : FormInput) :
    (validate i).length = specViolationCount i := by
  have len_block : ∀ (c : Prop) [Decidable c] (m : String),
      (if c then [m] else []).length = (if c then 1 else 0) := by
    intro c inst m; split <;> rfl
  have count_false : ∀ l : List Bool,
      List.count false l = (l.map fun b => if b = true then 0 else 1).sum := by
    intro l
    induction l with
    | nil => rfl
    | cons b t ih => cases b <;> simp [List.count_cons, ih, Nat.add_comm]
  have bname : (if pyStrip i.employee_name = "" then 1 else 0)
      = (if decide (pyStrip i.employee_name ≠ "") = true then 0 else 1) := by
    by_cases h : pyStrip i.employee_name = "" <;> simp [h]
  have bfrom : (if pyStrip i.from_location = "" then 1 else 0)
      = (if decide (pyStrip i.from_location ≠ "") = true then 0 else 1) := by
    by_cases h : pyStrip i.from_location = "" <;> simp [h]
  have bto : (if pyStrip i.to_location = "" then 1 else 0)
      = (if decide (pyStrip i.to_location ≠ "") = true then 0 else 1) := by
    by_cases h : pyStrip i.to_location = "" <;> simp [h]
  have bwork : (if pyStrip i.work_description = "" then 1 else 0)
      = (if decide (pyStrip i.work_description ≠ "") = true then 0 else 1) := by
    by_cases h : pyStrip i.work_description = "" <;> simp [h]
  have bfare : (if (!validate_money i.fare_amount) = true then 1 else 0)
      = (if decide (∃ a, i.fare_amount = some a ∧ 0 ≤ a) = true then 0 else 1) := by
    cases hv : validate_money i.fare_amount <;> simp [spec_fare_eq, hv]
  have bsel : (if i.selected = [] then 1 else 0)
      = (if decide (i.selected ≠ []) = true then 0 else 1) := by
    by_cases h : i.selected = [] <;> simp [h]
  have bother : (if "Other" ∈ i.selected ∧ pyStrip i.reason_other = "" then 1 else 0)
      = (if decide ("Other" ∈ i.selected → pyStrip i.reason_other ≠ "") = true then 0 else 1) := by
    by_cases hA : "Other" ∈ i.selected <;> by_cases hB : pyStrip i.reason_other = "" <;>
      simp [hA, hB]
  have bfile : (if oversized i.receipt_file = true then 1 else 0)
      = (if decide (∀ f, i.receipt_file = some f → f.size ≤ 8 * 1024 * 1024) = true then 0 else 1) := by
    cases ho : oversized i.receipt_file <;> simp [spec_file_eq, ho]
  unfold validate specViolationCount specInvariantsHold
  rw [count_false]
  simp only [List.length_append, len_block, List.map_cons, List.map_nil, List.sum_cons,
    List.sum_nil]
  rw [bname, bfrom, bto, bfare, bsel, bother, bwork, bfile]
  ring

/-- Claim C1: the validator evaluates all §3 invariant checks independently
without short-circuiting and returns exactly one error string per violated
invariant: the error list's length equals the number of violated invariants
(so `k` violations yield `k` errors), it is empty exactly when no invariant
is violated, and its entries are pairwise distinct. -/
theorem validator_reports_each_violated_invariant (i : FormInput) :
    (validate i).length = specViolationCount i ∧
    (validate i = [] ↔ specViolationCount i = 0) ∧
    (validate i).Nodup := by
  refine ⟨validate_length_eq i, ?_, ?_⟩
  · rw [← validate_length_eq i, List.length_eq_zero]
  · exact List.Nodup.sublist (validate_sublist i) (by decide)

/-! ## Submission handler lemmas and Claims C2, C3, C5 -/

theorem handle_submission_err (store : List Record) (i : FormInput) (h : validate i ≠ []) :
    handle_submission store i = ⟨store, validate i, none⟩ := by
  unfold handle_submission
  have hf : (validate i).isEmpty = false := by
    cases hv : validate i with
    | nil => exact absurd hv h
    | cons a t => rfl
  simp [hf]

theorem handle_submission_ok (store : List Record) (i : FormInput) (h : validate i = []) :
    handle_submission store i =
      ⟨store ++ [mkRecord i], [], some ("PDF generation failed: " ++ nameErrMsg)⟩ := by
  unfold handle_submission
  have ht : (validate i).isEmpty = true := by rw [h]; rfl
  simp [ht, pdf_from_record]

/-- Claim C2: any submission whose validation yields a non-empty error list
(the oversized-upload case included) leaves the session store unchanged —
no record is appended, and the errors are exactly the validator's output. -/
theorem errors_leave_store_unchanged (store : List Record) (i : FormInput)
    (h : validate i ≠ []) :
    (handle_submission store i).store = store ∧
    (handle_submission store i).errors = validate i := by
  rw [handle_submission_err store i h]
  exact ⟨rfl, rfl⟩

/-- Witness for C2 at Scenario D: a 9 MiB upload on an otherwise valid
submission trips exactly the oversized-file error and the store stays `[]`. -/
theorem errors_leave_store_unchanged_witness :
    validate inputD = ["Receipt file is too large (>8MB). Please upload a smaller file."] ∧
    (handle_submission [] inputD).store = [] ∧
    (handle_submission [] inputD).errors = validate inputD := by
  refine ⟨by decide, ?_, ?_⟩
  · exact (errors_leave_store_unchanged [] inputD (by decide)).1
  · exact (errors_leave_store_unchanged [] inputD (by decide)).2

/-- Claim C3: when PDF generation raises, the caller catches the exception
and surfaces a warning (it does not crash), and the record that was already
appended to the session store remains in the store. -/
theorem pdf_failure_preserves_record (store : List Record) (i : FormInput) (e : String)
    (hv : validate i = []) (hp : pdf_from_record (mkRecord i) = .error e) :
    (handle_submission store i).store = store ++ [mkRecord i] ∧
    mkRecord i ∈ (handle_submission store i).store ∧
    (handle_submission store i).warning = some ("PDF generation failed: " ++ e) := by
  unfold pdf_from_record at hp
  injection hp with he
  rw [handle_submission_ok store i hv, ← he]
  exact ⟨rfl, by simp, rfl⟩

/-- Witness for C3 at Scenario B: the valid submission is appended and the
PDF failure is downgraded to the warning, with the record still stored. -/
theorem pdf_failure_preserves_record_witness :
    (handle_submission [] inputB).store = [] ++ [mkRecord inputB] ∧
    mkRecord inputB ∈ (handle_submission [] inputB).store ∧
    (handle_submission [] inputB).warning = some ("PDF generation failed: " ++ nameErrMsg) :=
  pdf_failure_preserves_record [] inputB nameErrMsg (by decide) rfl

/-- Claim C5 (code bug): `pdf_from_record` never reaches its font-fallback
logic — the module never imports `pathlib`, so the `Path` reference at its
first statement raises `NameError` on every record, and no PDF byte stream
is ever produced (instead of falling back to Helvetica for ASCII input). -/
theorem pdf_from_record_always_raises (r : Record) :
    pdf_from_record r = Except.error nameErrMsg := rfl

/-! ## Renderer lemmas -/

theorem mk_data (s : String) : (⟨s.data⟩ : String) = s := rfl

theorem substr_refl (s : String) : Substr s s := ⟨[], [], by simp⟩

theorem infix_refl {α : Type} (l : List α) : l <:+: l := ⟨[], [], by simp⟩

theorem replNl_append (x y : List Char) : replNl (x ++ y) = replNl x ++ replNl y := by
  induction x with
  | nil => rfl
  | cons c cs ih => by_cases h : c = '\n' <;> simp [replNl, h, ih]

theorem replNl_nlfree (x : List Char) (h : ∀ c ∈ x, c ≠ '\n') : replNl x = x := by
  induction x with
  | nil => rfl
  | cons c cs ih =>
    have hc := h c (by simp)
    simp [replNl, hc, ih fun d hd => h d (by simp [hd])]

theorem splitNl_nlfree (x : List Char) (h : ∀ c ∈ x, c ≠ '\n') : splitNl x = [x] := by
  induction x with
  | nil => rfl
  | cons c cs ih =>
    have hc := h c (by simp)
    simp [splitNl, hc, ih fun d hd => h d (by simp [hd])]

theorem splitNl_single (a b : List Char) (ha : ∀ c ∈ a, c ≠ '\n') (hb : ∀ c ∈ b, c ≠ '\n') :
    splitNl (a ++ '\n' :: b) = [a, b] := by
  induction a with
  | nil => simp [splitNl, splitNl_nlfree b hb]
  | cons c cs ih =>
    have hc := ha c (by simp)
    simp only [List.cons_append, splitNl, hc, if_false]
    rw [List.append_eq, ih fun d hd => ha d (by simp [hd])]

theorem strData_cat_nl (a b : String) : (a ++ "\n" ++ b).data = a.data ++ '\n' :: b.data := by
  have h1 : ("\n" : String).data = ['\n'] := rfl
  simp [strData_append, h1]

theorem cat_nl_ne_empty (a b : String) : a ++ "\n" ++ b ≠ "" := by
  intro h
  have := congrArg String.data h
  rw [strData_cat_nl] at this
  simp at this

theorem descHtml_single (r : Record) (a b : String)
    (hr : r.work_description = a ++ "\n" ++ b)
    (ha : ∀ c ∈ a.data, c ≠ '\n') (hb : ∀ c ∈ b.data, c ≠ '\n') :
    descHtml r = a ++ "<br>" ++ b := by
  unfold descHtml
  rw [hr]
  have hstep : replNl ((a ++ "\n" ++ b).data) = (a ++ "<br>" ++ b).data := by
    rw [strData_cat_nl]
    have h2 : replNl ('\n' :: b.data) = '<' :: 'b' :: 'r' :: '>' :: replNl b.data := by
      simp [replNl]
    rw [show a.data ++ '\n' :: b.data = a.data ++ ('\n' :: b.data) from rfl, replNl_append, h2,
      replNl_nlfree a.data ha, replNl_nlfree b.data hb]
    have h3 : ("<br>" : String).data = ['<', 'b', 'r', '>'] := rfl
    simp [strData_append, h3]
  rw [hstep, mk_data]

/-! ## Position of the named cells inside the rendered page -/

theorem substr_in_trip {p : String} {r : Record} (h : Substr p (htmlTripSec r)) :
    Substr p (to_printable_html r) := by
  unfold to_printable_html
  exact substr_appL _ (substr_appL _ (substr_appL _ (substr_appL _ (substr_appR _ h))))

theorem substr_in_just {p : String} {r : Record} (h : Substr p (htmlJustSec r)) :
    Substr p (to_printable_html r) := by
  unfold to_printable_html
  exact substr_appL _ (substr_appL _ (substr_appL _ (substr_appR _ h)))

theorem substr_in_work {p : String} {r : Record} (h : Substr p (htmlWorkSec r)) :
    Substr p (to_printable_html r) := by
  unfold to_printable_html
  exact substr_appL _ (substr_appL _ (substr_appR _ h))

theorem substr_in_receipt {p : String} {r : Record} (h : Substr p (htmlReceiptSec r)) :
    Substr p (to_printable_html r) := by
  unfold to_printable_html
  exact substr_appL _ (substr_appR _ h)

theorem descBlock_in_html (r : Record) : Substr (htmlDescBlock r) (to_printable_html r) := by
  apply substr_in_work
  unfold htmlWorkSec
  exact substr_appL _ (substr_appR _ (substr_refl _))

theorem equipDiv_in_html (r : Record) : Substr (htmlEquipDiv r) (to_printable_html r) := by
  apply substr_in_work
  unfold htmlWorkSec
  exact substr_appL _ (substr_appL _ (substr_appL _ (substr_appR _ (substr_refl _))))

theorem otherDiv_in_html (r : Record) : Substr (htmlOtherDiv r) (to_printable_html r) := by
  apply substr_in_just
  unfold htmlJustSec
  exact substr_appL _ (substr_appR _ (substr_refl _))

theorem receiptNumDiv_in_html (r : Record) :
    Substr (htmlReceiptNumDiv r) (to_printable_html r) := by
  apply substr_in_trip
  unfold htmlTripSec
  exact substr_appL _ (substr_appR _ (substr_refl _))

theorem plateDiv_in_html (r : Record) : Substr (htmlPlateDiv r) (to_printable_html r) := by
  apply substr_in_receipt
  unfold htmlReceiptSec
  exact substr_appL _ (substr_appL _ (substr_appL _ (substr_appL _ (substr_appL _
    (substr_appL _ (substr_appL _ (substr_appR _ (substr_refl _))))))))

theorem startDiv_in_html (r : Record) : Substr (htmlStartDiv r) (to_printable_html r) := by
  apply substr_in_receipt
  unfold htmlReceiptSec
  exact substr_appL _ (substr_appL _ (substr_appL _ (substr_appL _ (substr_appL _
    (substr_appR _ (substr_refl _))))))

theorem endDiv_in_html (r : Record) : Substr (htmlEndDiv r) (to_printable_html r) := by
  apply substr_in_receipt
  unfold htmlReceiptSec
  exact substr_appL _ (substr_appL _ (substr_appL _ (substr_appR _ (substr_refl _))))

theorem distanceDiv_in_html (r : Record) : Substr (htmlDistanceDiv r) (to_printable_html r) := by
  apply substr_in_receipt
  unfold htmlReceiptSec
  exact substr_appL _ (substr_appR _ (substr_refl _))

/-! ## PDF draw-sequence lemmas -/

theorem kvLines_empty (label : String) : kvLines label "" = [label ++ ":", "N/A"] := by
  unfold kvLines
  norm_num
  rfl

theorem pdf_plate_na (r : Record) (h : r.license_plate = "") :
    ["Taxi License Plate:", "N/A"] <:+: pdfDrawLines r := by
  unfold pdfDrawLines
  apply infix_appL
  apply infix_appL
  apply infix_appL
  apply infix_appR
  rw [h, kvLines_empty]
  exact infix_refl _

theorem splitNlStr_single (a b : String) (ha : ∀ c ∈ a.data, c ≠ '\n')
    (hb : ∀ c ∈ b.data, c ≠ '\n') :
    splitNlStr (a ++ "\n" ++ b) = [a, b] := by
  unfold splitNlStr
  rw [strData_cat_nl, splitNl_single a.data b.data ha hb]
  simp [mk_data]

theorem pdf_desc_lines (r : Record) (a b : String)
    (hr : r.work_description = a ++ "\n" ++ b)
    (ha : ∀ c ∈ a.data, c ≠ '\n') (hb : ∀ c ∈ b.data, c ≠ '\n') :
    [a, b] <:+: pdfDrawLines r := by
  unfold pdfDrawLines
  apply infix_appL
  apply infix_appL
  apply infix_appL
  apply infix_appL
  apply infix_appL
  apply infix_appL
  apply infix_appR
  have hne : r.work_description ≠ "" := by rw [hr]; exact cat_nl_ne_empty a b
  rw [pyOrNA, if_neg hne, hr, splitNlStr_single a b ha hb]

/-! ## Claims C6, C7, C8 -/

/-- Claim C6 (counterexample): user-supplied markup is not neutralized.
A work description `"<b>hi</b>"` reaches the rendered page verbatim as
active markup — a neutralizing renderer would not emit this byte sequence. -/
theorem html_markup_not_neutralized_cex :
    recM.work_description = "<b>hi</b>" ∧ Substr "<b>hi</b>" (to_printable_html recM) := by
  refine ⟨rfl, ?_⟩
  have h1 : descHtml recM = "<b>hi</b>" := by decide
  refine substr_trans ?_ (descBlock_in_html recM)
  unfold htmlDescBlock
  rw [h1]
  exact substr_mid _ _ _

/-- Claim C6 (amended): the HTML renderer does not neutralize markup
control characters.  Every user-supplied free-text value is interpolated
verbatim into the page — the work description after only the newline →
`<br>` replacement, the equipment and other-justification displays as they
stand — so markup characters in user text become markup in the output. -/
theorem html_user_text_interpolated_verbatim (r : Record) :
    Substr (descHtml r) (to_printable_html r) ∧
    Substr (equipDisplay r) (to_printable_html r) ∧
    Substr (pyOrNA r.reason_other) (to_printable_html r) ∧
    ((∀ c ∈ r.work_description.data, c ≠ '\n') →
      Substr r.work_description (to_printable_html r)) := by
  refine ⟨?_, ?_, ?_, ?_⟩
  · exact substr_trans (by unfold htmlDescBlock; exact substr_mid _ _ _) (descBlock_in_html r)
  · exact substr_trans (by unfold htmlEquipDiv; exact substr_mid _ _ _) (equipDiv_in_html r)
  · exact substr_trans (by unfold htmlOtherDiv; exact substr_mid _ _ _) (otherDiv_in_html r)
  · intro h
    have hd : descHtml r = r.work_description := by
      unfold descHtml
      rw [replNl_nlfree _ h, mk_data]
    rw [← hd]
    exact substr_trans (by unfold htmlDescBlock; exact substr_mid _ _ _) (descBlock_in_html r)

/-- Witness for the amended C6: the newline-free markup description of
`recM` appears verbatim in its rendered page. -/
theorem html_user_text_interpolated_verbatim_witness :
    Substr recM.work_description (to_printable_html recM) :=
  (html_user_text_interpolated_verbatim recM).2.2.2 (by decide)

/-- Claim C7 (counterexample): a record with an empty license plate renders
the HTML receipt-info cell as empty space after the label — the cell
contains no "N/A" placeholder. -/
theorem optional_as_na_claim_cex :
    recX.license_plate = "" ∧
    htmlPlateDiv recX = "<div><strong>Taxi License Plate:</strong> </div>" ∧
    ¬ Substr "N/A" (htmlPlateDiv recX) :=
  ⟨rfl, by decide, by decide⟩

/-- Claim C7 (amended): in the PDF draw sequence the `kv` helper renders
every empty optional as "N/A" (license plate included), but in the HTML
page only equipment, distance and other-details get the "N/A" fallback,
while license plate, receipt number and start/end time cells render as
empty space; and the direct PDF renderer itself fails with `NameError`
before drawing anything. -/
theorem optional_value_rendering (r : Record) :
    Substr (htmlEquipDiv r) (to_printable_html r) ∧
    (pyStrip r.equipment = "" →
      htmlEquipDiv r = "<div><strong>Equipment (if any):</strong> N/A</div>") ∧
    Substr (htmlDistanceDiv r) (to_printable_html r) ∧
    (r.distance_km = none → htmlDistanceDiv r = "<div><strong>Distance:</strong> N/A</div>") ∧
    Substr (htmlOtherDiv r) (to_printable_html r) ∧
    (r.reason_other = "" →
      htmlOtherDiv r = "<div><strong>Other (details):</strong> N/A</div>") ∧
    (r.license_plate = "" →
      htmlPlateDiv r = "<div><strong>Taxi License Plate:</strong> </div>") ∧
    (r.receipt_number = "" →
      htmlReceiptNumDiv r = "<div><strong>Receipt Number:</strong> </div>") ∧
    (r.start_time = "" → htmlStartDiv r = "<div><strong>Start Time:</strong> </div>") ∧
    (r.end_time = "" → htmlEndDiv r = "<div><strong>End Time:</strong> </div>") ∧
    (∀ label v, v = "" → kvLines label v = [label ++ ":", "N/A"]) ∧
    (r.license_plate = "" → ["Taxi License Plate:", "N/A"] <:+: pdfDrawLines r) ∧
    pdf_from_record r = Except.error nameErrMsg := by
  refine ⟨equipDiv_in_html r, ?_, distanceDiv_in_html r, ?_, otherDiv_in_html r, ?_, ?_, ?_,
    ?_, ?_, ?_, pdf_plate_na r, rfl⟩
  · intro h; unfold htmlEquipDiv equipDisplay; rw [h]; decide
  · intro h; unfold htmlDistanceDiv distanceDisplay; rw [h]; decide
  · intro h; unfold htmlOtherDiv pyOrNA; rw [h]; decide
  · intro h; unfold htmlPlateDiv; rw [h]; decide
  · intro h; unfold htmlReceiptNumDiv; rw [h]; decide
  · intro h; unfold htmlStartDiv; rw [h]; decide
  · intro h; unfold htmlEndDiv; rw [h]; decide
  · intro label v h; rw [h]; exact kvLines_empty label

/-- Witness for the amended C7 at concrete records: empty plate renders as
empty HTML cell, absent distance and empty equipment render as "N/A", and
the draw sequence shows "N/A" after the plate label. -/
theorem optional_value_rendering_witness :
    htmlPlateDiv recX = "<div><strong>Taxi License Plate:</strong> </div>" ∧
    htmlDistanceDiv recX = "<div><strong>Distance:</strong> N/A</div>" ∧
    htmlEquipDiv recM = "<div><strong>Equipment (if any):</strong> N/A</div>" ∧
    kvLines "Start Time" "" = ["Start Time:", "N/A"] ∧
    ["Taxi License Plate:", "N/A"] <:+: pdfDrawLines recX := by
  obtain ⟨_, _, _, hd, _, _, hp, _, _, _, hkv, hinf, _⟩ := optional_value_rendering recX
  obtain ⟨_, he, _, _, _, _, _, _, _, _, _, _, _⟩ := optional_value_rendering recM
  exact ⟨hp rfl, hd rfl, he (by decide), hkv "Start Time" "" rfl, hinf rfl⟩

/-- Claim C8 (counterexample): the claim fails on both render paths for a
record with newlines in its free-text fields: the direct PDF renderer
produces no output at all (it raises `NameError`), so nothing renders
"Line1"/"Line2" as two lines in a PDF; and the equipment newline reaches
the HTML as a raw newline inside a plain grid cell — no line-break markup
is emitted for it. -/
theorem line_breaks_claim_cex :
    recX.work_description = "Line1\nLine2" ∧ recX.equipment = "A\nB" ∧
    pdf_from_record recX = Except.error nameErrMsg ∧
    Substr "A\nB" (htmlEquipDiv recX) ∧
    ¬ Substr "A<br>B" (htmlEquipDiv recX) ∧
    ¬ Substr "<br>" (htmlEquipDiv recX) :=
  ⟨rfl, rfl, rfl, by decide, by decide, by decide⟩

/-- Claim C8 (amended): a work description `a ++ "\n" ++ b` renders with an
explicit `<br>` between `a` and `b` in the HTML page (inside the pre-wrap
block), and the PDF draw sequence carries `a` and `b` as two separate
lines — but the PDF renderer itself always fails with `NameError`, so no
actual PDF shows them; and an equipment value with an embedded newline
gets no line-break markup in the HTML. -/
theorem line_break_rendering (r : Record) (a b : String)
    (hr : r.work_description = a ++ "\n" ++ b)
    (ha : ∀ c ∈ a.data, c ≠ '\n') (hb : ∀ c ∈ b.data, c ≠ '\n') :
    Substr (a ++ "<br>" ++ b) (to_printable_html r) ∧
    [a, b] <:+: pdfDrawLines r ∧
    pdf_from_record r = Except.error nameErrMsg ∧
    (r.equipment = "A\nB" → ¬ Substr "A<br>B" (htmlEquipDiv r)) := by
  refine ⟨?_, pdf_desc_lines r a b hr ha hb, rfl, ?_⟩
  · rw [← descHtml_single r a b hr ha hb]
    exact substr_trans (by unfold htmlDescBlock; exact substr_mid _ _ _) (descBlock_in_html r)
  · intro h
    have he : htmlEquipDiv r = "<div><strong>Equipment (if any):</strong> A\nB</div>" := by
      unfold htmlEquipDiv equipDisplay
      rw [h]
      decide
    rw [he]
    decide

/-- Witness for the amended C8 at Scenario E's record shape. -/
theorem line_break_rendering_witness :
    Substr ("Line1" ++ "<br>" ++ "Line2") (to_printable_html recX) ∧
    ["Line1", "Line2"] <:+: pdfDrawLines recX ∧
    pdf_from_record recX = Except.error nameErrMsg ∧
    ¬ Substr "A<br>B" (htmlEquipDiv recX) := by
  obtain ⟨h1, h2, h3, h4⟩ :=
    line_break_rendering recX "Line1" "Line2" (by decide) (by decide) (by decide)
  exact ⟨h1, h2, h3, h4 rfl⟩


/-! ## Claim C10: normalization of stored records -/

theorem round2_den (q : ℚ) : (round2 q * 100).den = 1 := by
  unfold round2
  rw [div_mul_cancel₀ _ (by norm_num : (100 : ℚ) ≠ 0)]
  exact Rat.den_intCast _

theorem hhmm_shape (t : TimeHM) : isHHMMStr (hhmm t) :=
  ⟨t.hour.val, t.minute.val, t.hour.isLt, t.minute.isLt, rfl⟩

theorem mkRecord_normalized (i : FormInput) : NormalizedRecord (mkRecord i) := by
  refine ⟨pyStrip_idem _, pyStrip_idem _, pyStrip_idem _, pyStrip_idem _, pyStrip_idem _,
    pyStrip_idem _, pyStrip_idem _, pyStrip_idem _, pyStrip_idem _, round2_den _, hhmm_shape _,
    ?_, ?_⟩
  · have hpr : (mkRecord i).start_time
        = (match i.start_time with | some t => hhmm t | none => "") := rfl
    rw [hpr]
    cases i.start_time with
    | none => exact Or.inl rfl
    | some t => exact Or.inr (hhmm_shape t)
  · have hpr : (mkRecord i).end_time
        = (match i.end_time with | some t => hhmm t | none => "") := rfl
    rw [hpr]
    cases i.end_time with
    | none => exact Or.inl rfl
    | some t => exact Or.inr (hhmm_shape t)

theorem reachable_normalized : ∀ s, Reachable s → ∀ r ∈ s, NormalizedRecord r := by
  intro s hs
  induction hs with
  | nil => intro r hr; simp at hr
  | step s2 i hs2 ih =>
    intro r hr
    by_cases hv : validate i = []
    · rw [handle_submission_ok s2 i hv] at hr
      simp only [List.mem_append, List.mem_singleton] at hr
      rcases hr with h | h
      · exact ih r h
      · rw [h]; exact mkRecord_normalized i
    · rw [handle_submission_err s2 i hv] at hr
      exact ih r hr

/-- Claim C10: every record ever appended to the session store is
normalized at construction: its user-text fields are whitespace-trimmed,
its fare is the submitted fare rounded to two decimal places (hence has at
most two decimals), its times are `HH:MM` strings, and absent optional
values (start/end time, distance, uploaded receipt name) are stored as the
empty value rather than as a missing/null one. -/
theorem records_normalized (s : List Record) (hs : Reachable s) :
    (∀ r ∈ s, NormalizedRecord r) ∧
    (∀ i : FormInput,
      (mkRecord i).fare_amount = round2 (i.fare_amount.getD 0) ∧
      (i.start_time = none → (mkRecord i).start_time = "") ∧
      (i.end_time = none → (mkRecord i).end_time = "") ∧
      (i.distance_km = 0 → (mkRecord i).distance_km = none) ∧
      (i.receipt_file = none → (mkRecord i).uploaded_receipt_name = "")) := by
  refine ⟨reachable_normalized s hs, ?_⟩
  intro i
  refine ⟨rfl, ?_, ?_, ?_, ?_⟩
  · intro h; simp [mkRecord, h]
  · intro h; simp [mkRecord, h]
  · intro h; simp [mkRecord, h]
  · intro h; simp [mkRecord, h]

/-- Witness for C10: the store reached by submitting Scenario B holds a
normalized record, and its absent optionals are stored empty. -/
theorem records_normalized_witness :
    NormalizedRecord (mkRecord inputB) ∧ (mkRecord inputB).start_time = "" ∧
    (mkRecord inputB).distance_km = none := by
  have hreach : Reachable (handle_submission [] inputB).store :=
    Reachable.step [] inputB Reachable.nil
  have hmem : mkRecord inputB ∈ (handle_submission [] inputB).store := by
    rw [handle_submission_ok [] inputB (by decide)]
    simp
  obtain ⟨hall, hconstr⟩ := records_normalized _ hreach
  obtain ⟨_, hst, _, hdk, _⟩ := hconstr inputB
  exact ⟨hall _ hmem, hst rfl, hdk rfl⟩

/-! ## Decimal digit lemmas -/

theorem digitsRevF_lt : ∀ (fuel n : ℕ), ∀ d ∈ digitsRevF fuel n, d < 10 := by
  intro fuel
  induction fuel with
  | zero => intro n d hd; simp [digitsRevF] at hd
  | succ f ih =>
    intro n d hd
    by_cases h : n = 0
    · simp [digitsRevF, h] at hd
    · rw [digitsRevF, if_neg h] at hd
      rcases List.mem_cons.mp hd with h1 | h1
      · rw [h1]; exact Nat.mod_lt _ (by norm_num)
      · exact ih _ d h1

theorem foldD_from (a : ℕ) (l : List ℕ) :
    List.foldl (fun x d => 10 * x + d) a l = a * 10 ^ l.length + foldD l := by
  induction l generalizing a with
  | nil => simp [foldD]
  | cons d t ih =>
    rw [List.foldl_cons, ih (10 * a + d)]
    have h2 : foldD (d :: t) = d * 10 ^ t.length + foldD t := by
      unfold foldD
      rw [List.foldl_cons]
      simpa using ih d
    rw [h2, List.length_cons, pow_succ]
    ring

theorem foldD_split (x y : List ℕ) :
    foldD (x ++ y) = foldD x * 10 ^ y.length + foldD y := by
  unfold foldD
  rw [List.foldl_append]
  exact foldD_from _ y

theorem foldD_zeros (z : ℕ) (l : List ℕ) :
    foldD (List.replicate z 0 ++ l) = foldD l := by
  rw [foldD_split]
  have : foldD (List.replicate z 0) = 0 := by
    induction z with
    | zero => rfl
    | succ m ih =>
      rw [List.replicate_succ]
      unfold foldD at ih ⊢
      rw [List.foldl_cons]
      simpa using ih
  rw [this]
  simp

theorem digitsRevF_fold : ∀ (fuel n : ℕ), n ≤ fuel →
    foldD (digitsRevF fuel n).reverse = n := by
  intro fuel
  induction fuel with
  | zero => intro n h; interval_cases n; rfl
  | succ f ih =>
    intro n h
    by_cases h0 : n = 0
    · simp [digitsRevF, h0, foldD]
    · rw [digitsRevF, if_neg h0, List.reverse_cons, foldD_split]
      have hdiv : n / 10 ≤ f := by
        have := Nat.div_lt_self (Nat.pos_of_ne_zero h0) (by norm_num : 1 < 10)
        omega
      rw [ih (n / 10) hdiv]
      simp [foldD]
      omega

theorem charVal_digitChar (d : ℕ) (h : d < 10) : (digitChar d).toNat - 48 = d := by
  interval_cases d <;> decide

theorem isDigit_digitChar (d : ℕ) (h : d < 10) : (digitChar d).isDigit = true := by
  interval_cases d <;> decide

theorem takeDigits_map (vs : List ℕ) (rest : List Char)
    (hvs : ∀ d ∈ vs, d < 10)
    (hrest : rest = [] ∨ ∃ c cs, rest = c :: cs ∧ c.isDigit = false) :
    takeDigits (vs.map digitChar ++ rest) = (vs, rest) := by
  induction vs with
  | nil =>
    rcases hrest with h | ⟨c, cs, hc, hd⟩
    · simp [h, takeDigits]
    · simp [hc, takeDigits, hd]
  | cons d t ih =>
    have hd := hvs d (by simp)
    rw [List.map_cons, List.cons_append, takeDigits,
      if_pos (isDigit_digitChar d hd), ih fun e he => hvs e (by simp [he])]
    simp [charVal_digitChar d hd]

theorem digitsPadded_eq_map (n w : ℕ) :
    digitsPadded n w
      = (List.replicate (w - (digitsRevF n n).length) 0 ++ (digitsRevF n n).reverse).map
          digitChar := by
  unfold digitsPadded digitsMSB
  rw [List.map_append, List.map_reverse]
  rw [List.map_replicate]
  simp [digitChar]

theorem digitsPadded_length (n w : ℕ) : w ≤ (digitsPadded n w).length := by
  unfold digitsPadded
  simp
  omega

/-! ## Decimal round-trip -/

theorem m_cast (q : ℚ) (k : ℕ) (h0 : 0 ≤ q) (hden : q.den ∣ 10 ^ k) :
    ((q.num.toNat * (10 ^ k / q.den) : ℕ) : ℚ) = q * 10 ^ k := by
  have hnum : ((q.num.toNat : ℕ) : ℚ) = (q.num : ℚ) := by
    have h1 := Int.toNat_of_nonneg (Rat.num_nonneg.mpr h0)
    exact_mod_cast congrArg (Int.cast : ℤ → ℚ) h1
  have hden0 : (q.den : ℚ) ≠ 0 := by
    exact_mod_cast q.den_nz
  have hdc : ((10 ^ k / q.den : ℕ) : ℚ) * (q.den : ℚ) = ((10 : ℚ) ^ k) := by
    have h1 : 10 ^ k / q.den * q.den = 10 ^ k := Nat.div_mul_cancel hden
    exact_mod_cast congrArg (Nat.cast : ℕ → ℚ) h1
  have hqd : q * (q.den : ℚ) = (q.num : ℚ) := by
    exact_mod_cast Rat.mul_den_eq_num q
  apply mul_right_cancel₀ hden0
  push_cast
  rw [hnum]
  calc (q.num : ℚ) * ((10 ^ k / q.den : ℕ) : ℚ) * (q.den : ℚ)
      = (q.num : ℚ) * (((10 ^ k / q.den : ℕ) : ℚ) * (q.den : ℚ)) := by ring
    _ = (q.num : ℚ) * (10 : ℚ) ^ k := by rw [hdc]
    _ = (q * (q.den : ℚ)) * (10 : ℚ) ^ k := by rw [hqd]
    _ = q * 10 ^ k * (q.den : ℚ) := by ring

theorem parseDecChars_digits_dot (vs ws : List ℕ)
    (hvs : ∀ d ∈ vs, d < 10) (hws : ∀ d ∈ ws, d < 10)
    (hvne : vs ≠ []) (hwne : ws ≠ []) :
    parseDecChars (vs.map digitChar ++ '.' :: ws.map digitChar)
      = some (((foldD vs * 10 ^ ws.length + foldD ws : ℤ) : ℚ) / ((10 : ℚ) ^ ws.length)) := by
  have h1 : takeDigits (vs.map digitChar ++ '.' :: ws.map digitChar)
      = (vs, '.' :: ws.map digitChar) :=
    takeDigits_map vs _ hvs (Or.inr ⟨'.', _, rfl, by decide⟩)
  have h2 : takeDigits (ws.map digitChar) = (ws, []) := by
    have h3 := takeDigits_map ws [] hws (Or.inl rfl)
    simpa using h3
  simp only [parseDecChars, h1, h2, List.length_map]
  rw [if_pos ⟨trivial, hvne, hwne⟩]

theorem parseDec_formatDec (q : ℚ) (h0 : 0 ≤ q) (hden : q.den ∣ 10 ^ decExp q) :
    parseDecStr (formatDec q) = some q := by
  have hmq := m_cast q (decExp q) h0 hden
  set k := decExp q with hkdef
  set m := q.num.toNat * (10 ^ k / q.den) with hmdef
  set vs := List.replicate ((k + 1) - (digitsRevF m m).length) 0
      ++ (digitsRevF m m).reverse with hvsdef
  have hds : digitsPadded m (k + 1) = vs.map digitChar := digitsPadded_eq_map m (k + 1)
  have hvs10 : ∀ d ∈ vs, d < 10 := by
    intro d hd
    rcases List.mem_append.mp hd with h | h
    · rw [List.eq_of_mem_replicate h]; norm_num
    · exact digitsRevF_lt m m d (List.mem_reverse.mp h)
  have hfold : foldD vs = m := by
    rw [hvsdef, foldD_zeros]
    exact digitsRevF_fold m m le_rfl
  have hlenv : k + 1 ≤ vs.length := by
    have hp := digitsPadded_length m (k + 1)
    rw [hds, List.length_map] at hp
    exact hp
  have hvne : vs ≠ [] := by
    intro h
    rw [h] at hlenv
    simp at hlenv
  have hten : ((10 : ℚ) ^ k) ≠ 0 := by positivity
  rcases Nat.eq_zero_or_pos k with hk0 | hkpos
  · -- no fractional digits: rendered as the digits plus ".0"
    have hfd : (formatDec q).data = vs.map digitChar ++ '.' :: [0].map digitChar := by
      simp only [formatDec]
      rw [← hkdef, ← hmdef, if_pos hk0, hds, strData_append]
      rfl
    unfold parseDecStr
    rw [hfd, parseDecChars_digits_dot vs [0] hvs10 (by norm_num) hvne (by simp)]
    congr 1
    rw [hfold]
    simp only [List.length_cons, List.length_nil]
    have hfz : foldD [0] = 0 := rfl
    rw [hfz]
    have hm0 : (m : ℚ) = q := by
      rw [hk0] at hmq
      simpa using hmq
    push_cast
    rw [hm0]
    field_simp
  · -- k ≥ 1 fractional digits
    have hkne : ¬ k = 0 := by omega
    have hfd : (formatDec q).data
        = (vs.take (vs.length - k)).map digitChar
          ++ '.' :: (vs.drop (vs.length - k)).map digitChar := by
      simp only [formatDec]
      rw [← hkdef, ← hmdef, if_neg hkne, hds, List.length_map, ← List.map_take, ← List.map_drop,
        strData_append, strData_append]
      show (vs.take (vs.length - k)).map digitChar ++ ['.']
          ++ (vs.drop (vs.length - k)).map digitChar = _
      simp
    have htake_ne : vs.take (vs.length - k) ≠ [] := by
      intro h
      have := congrArg List.length h
      rw [List.length_take] at this
      simp at this
      omega
    have hdrop_ne : vs.drop (vs.length - k) ≠ [] := by
      intro h
      have := congrArg List.length h
      rw [List.length_drop] at this
      simp at this
      omega
    have hdrop_len : (vs.drop (vs.length - k)).length = k := by
      rw [List.length_drop]
      omega
    unfold parseDecStr
    rw [hfd, parseDecChars_digits_dot (vs.take (vs.length - k)) (vs.drop (vs.length - k))
      (fun d hd => hvs10 d (List.take_subset _ _ hd))
      (fun d hd => hvs10 d (List.drop_subset _ _ hd)) htake_ne hdrop_ne]
    congr 1
    rw [hdrop_len]
    have hsplit : foldD (vs.take (vs.length - k)) * 10 ^ k + foldD (vs.drop (vs.length - k))
        = m := by
      have hs := foldD_split (vs.take (vs.length - k)) (vs.drop (vs.length - k))
      rw [List.take_append_drop, hdrop_len, hfold] at hs
      omega
    rw [div_eq_iff hten]
    push_cast
    exact_mod_cast congrArg (fun z : ℕ => (z : ℚ)) hsplit |>.trans hmq

/-! ## CSV encoding and parsing lemmas -/

theorem splitCellUnquoted_cons (c : Char) (cs : List Char) (h : ¬(c = ',' ∨ c = '\n')) :
    splitCellUnquoted (c :: cs) =
      (c :: (splitCellUnquoted cs).1, (splitCellUnquoted cs).2) := by
  simp [splitCellUnquoted, h]

theorem splitCellUnquoted_spec (s rest : List Char)
    (hs : ∀ c ∈ s, ¬(c = ',' ∨ c = '\n'))
    (hr : ∃ c cs, rest = c :: cs ∧ (c = ',' ∨ c = '\n')) :
    splitCellUnquoted (s ++ rest) = (s, rest) := by
  induction s with
  | nil =>
    obtain ⟨c, cs, hrc, hcs⟩ := hr
    rw [List.nil_append, hrc]
    simp [splitCellUnquoted, hcs]
  | cons c cs ih =>
    have hc := hs c (by simp)
    rw [List.cons_append, splitCellUnquoted_cons c _ hc, ih fun d hd => hs d (by simp [hd])]

theorem splitCellQuoted_dd (cs2 : List Char) :
    splitCellQuoted ('"' :: '"' :: cs2)
      = (splitCellQuoted cs2).map fun p => ('"' :: p.1, p.2) := rfl

theorem splitCellQuoted_close (c2 : Char) (cs2 : List Char) (h : ¬ c2 = '"') :
    splitCellQuoted ('"' :: c2 :: cs2) = some ([], c2 :: cs2) := by
  rw [splitCellQuoted.eq_def]
  simp [h]

theorem splitCellQuoted_other (c : Char) (cs : List Char) (h : ¬ c = '"') :
    splitCellQuoted (c :: cs) = (splitCellQuoted cs).map fun p => (c :: p.1, p.2) := by
  rw [splitCellQuoted.eq_def]
  simp [h]

theorem splitCellQuoted_spec (s rest : List Char) (hr : rest.head? ≠ some '"') :
    splitCellQuoted (escQ s ++ '"' :: rest) = some (s, rest) := by
  induction s with
  | nil =>
    show splitCellQuoted ('"' :: rest) = some ([], rest)
    cases rest with
    | nil => rfl
    | cons c2 cs2 =>
      have hc2 : ¬ c2 = '"' := by simpa using hr
      exact splitCellQuoted_close c2 cs2 hc2
  | cons c cs ih =>
    by_cases hc : c = '"'
    · subst hc
      have he : escQ ('"' :: cs) ++ '"' :: rest = '"' :: '"' :: (escQ cs ++ '"' :: rest) := by
        simp [escQ]
      rw [he, splitCellQuoted_dd, ih]
      rfl
    · have he : escQ (c :: cs) ++ '"' :: rest = c :: (escQ cs ++ '"' :: rest) := by
        simp [escQ, hc]
      rw [he, splitCellQuoted_other c _ hc, ih]
      rfl

theorem needsQuote_true_of_mem (l : List Char) (c : Char) (hc : c ∈ l)
    (h : c = ',' ∨ c = '"' ∨ c = '\n' ∨ c = '\r') : needsQuote l = true := by
  unfold needsQuote
  rw [List.any_eq_true]
  exact ⟨c, hc, by rcases h with h | h | h | h <;> simp [h]⟩

theorem parseCellsF_scan (f : ℕ) (c T : List Char)
    (hT : ∃ ch cs, T = ch :: cs ∧ (ch = ',' ∨ ch = '\n')) :
    parseCellsF (f + 1) (encCell c ++ T) =
      (match T with
       | ch :: rest2 =>
         if ch = ',' then
           match parseCellsF f rest2 with
           | none => none
           | some (cells, rem) => some (c :: cells, rem)
         else if ch = '\n' then some ([c], rest2)
         else none
       | [] => some ([c], [])) := by
  obtain ⟨ch, cs, hTc, hor⟩ := hT
  have hch_ne : ¬ ch = '"' := by rcases hor with h | h <;> subst h <;> decide
  subst hTc
  by_cases hq : needsQuote c
  · have hin : encCell c ++ (ch :: cs) = '"' :: (escQ c ++ '"' :: (ch :: cs)) := by
      simp [encCell, hq]
    rw [hin]
    simp only [parseCellsF]
    rw [splitCellQuoted_spec c (ch :: cs) (by simp [hch_ne])]
    simp
  · have hnc : ∀ d ∈ c, ¬(d = ',' ∨ d = '\n') := by
      intro d hd hor2
      have ht := needsQuote_true_of_mem c d hd (by tauto)
      rw [ht] at hq
      exact hq rfl
    have hsp : splitCellUnquoted (c ++ (ch :: cs)) = (c, ch :: cs) :=
      splitCellUnquoted_spec c (ch :: cs) hnc ⟨ch, cs, rfl, hor⟩
    have hcell : encCell c = c := by simp [encCell, hq]
    cases c with
    | nil =>
      rw [show encCell [] = [] from rfl, List.nil_append]
      rw [List.nil_append] at hsp
      simp only [parseCellsF, if_neg hch_ne]
      rw [hsp]
    | cons c0 ct =>
      have hc0 : ¬ c0 = '"' := by
        intro he
        have ht := needsQuote_true_of_mem (c0 :: ct) c0 (by simp) (by simp [he])
        rw [ht] at hq
        exact hq rfl
      rw [hcell, List.cons_append]
      rw [List.cons_append] at hsp
      simp only [parseCellsF, if_neg hc0]
      rw [hsp]

theorem parseCellsF_encRow : ∀ (row : List (List Char)) (rest : List Char) (fuel : ℕ),
    row ≠ [] → row.length ≤ fuel →
    parseCellsF fuel (encRow row ++ '\n' :: rest) = some (row, rest) := by
  intro row
  induction row with
  | nil => intro rest fuel h _; exact absurd rfl h
  | cons c tl ih =>
    intro rest fuel _ hlen
    cases fuel with
    | zero => simp at hlen
    | succ f =>
      cases tl with
      | nil =>
        rw [show encRow [c] = encCell c from rfl,
          parseCellsF_scan f c ('\n' :: rest) ⟨'\n', rest, rfl, Or.inr rfl⟩]
        rfl
      | cons c2 tl2 =>
        have henc : encRow (c :: c2 :: tl2) ++ '\n' :: rest
            = encCell c ++ ',' :: (encRow (c2 :: tl2) ++ '\n' :: rest) := by
          show (encCell c ++ ',' :: encRow (c2 :: tl2)) ++ '\n' :: rest = _
          simp [List.append_assoc]
        rw [henc, parseCellsF_scan f c _ ⟨',', _, rfl, Or.inl rfl⟩]
        have hlen2 : (c2 :: tl2).length ≤ f := by
          simp only [List.length_cons] at hlen ⊢
          omega
        have hred := ih rest f (by simp) hlen2
        simp [hred]

theorem encRow_length (row : List (List Char)) : row.length ≤ (encRow row).length + 1 := by
  induction row with
  | nil => simp [encRow]
  | cons c tl ih =>
    cases tl with
    | nil => simp [encRow]
    | cons c2 tl2 =>
      show (c :: c2 :: tl2).length ≤ (encCell c ++ ',' :: encRow (c2 :: tl2)).length + 1
      simp only [List.length_cons, List.length_append] at ih ⊢
      omega

theorem encRows_length (rows : List (List (List Char))) :
    rows.length ≤ (encRows rows).length := by
  induction rows with
  | nil => simp [encRows]
  | cons row rows ih =>
    show (row :: rows).length ≤ (encRow row ++ '\n' :: encRows rows).length
    simp only [List.length_cons, List.length_append] at ih ⊢
    omega

theorem parseCells_encRow (row : List (List Char)) (rest : List Char) (hne : row ≠ []) :
    parseCells (encRow row ++ '\n' :: rest) = some (row, rest) := by
  unfold parseCells
  apply parseCellsF_encRow row rest _ hne
  have h1 := encRow_length row
  simp only [List.length_append, List.length_cons]
  omega

theorem parseRowsF_encRows : ∀ (rows : List (List (List Char))) (fuel : ℕ),
    (∀ row ∈ rows, row ≠ []) → rows.length < fuel →
    parseRowsF fuel (encRows rows) = some rows := by
  intro rows
  induction rows with
  | nil =>
    intro fuel _ hf
    cases fuel with
    | zero => omega
    | succ f => simp [encRows, parseRowsF]
  | cons row rows ih =>
    intro fuel hne hf
    cases fuel with
    | zero => omega
    | succ f =>
      have hinne : encRow row ++ '\n' :: encRows rows ≠ [] := by
        cases hrr : encRow row <;> simp [hrr]
      have h1 := parseCells_encRow row (encRows rows) (hne row (by simp))
      have h2 := ih f (fun r hr => hne r (by simp [hr]))
        (by simp only [List.length_cons] at hf; omega)
      show parseRowsF (f + 1) (encRow row ++ '\n' :: encRows rows) = _
      simp only [parseRowsF, if_neg hinne, h1, h2]

theorem mapmk_mapdata (row : List String) :
    (row.map String.data).map (fun l => (⟨l⟩ : String)) = row := by
  rw [List.map_map]
  have hcomp : ((fun l => (⟨l⟩ : String)) ∘ String.data) = id := by
    funext s
    exact mk_data s
  rw [hcomp, List.map_id]

/-- Parsing the CSV text back recovers the header and one cell row per
record, in order — the structural round trip of the export. -/
theorem parseCSV_csvString (ls : List Record) :
    parseCSV (csvString ls) = some (csvHeader :: ls.map cellsOf) := by
  unfold parseCSV csvString
  set charRows := (csvHeader :: ls.map cellsOf).map (fun row => row.map String.data) with hcr
  have hne : ∀ row ∈ charRows, row ≠ [] := by
    intro row hrow
    rw [hcr] at hrow
    simp only [List.mem_map] at hrow
    obtain ⟨srow, hsrow, heq⟩ := hrow
    subst heq
    rcases List.mem_cons.mp hsrow with h | h
    · subst h; simp [csvHeader]
    · simp only [List.mem_map] at h
      obtain ⟨r, _, heq2⟩ := h
      subst heq2
      simp [cellsOf]
  have hlen : charRows.length < (encRows charRows).length + 1 := by
    have := encRows_length charRows
    omega
  have hp := parseRowsF_encRows charRows ((encRows charRows).length + 1) hne hlen
  rw [show (String.mk (encRows charRows)).data = encRows charRows from rfl, hp]
  rw [Option.map_some']
  rw [hcr, List.map_map]
  have hid : ((fun row : List (List Char) => row.map (fun l => (⟨l⟩ : String)))
      ∘ (fun row : List String => row.map String.data)) = id := by
    funext row
    simp only [Function.comp_apply]
    exact mapmk_mapdata row
  rw [hid, List.map_id]

/-! ## Record-level round trip -/

theorem formatDec_ne_empty (q : ℚ) : formatDec q ≠ "" := by
  intro h
  simp only [formatDec] at h
  split at h
  · have hd := congrArg String.data h
    rw [strData_append] at hd
    simp at hd
  · have hd := congrArg String.data h
    rw [strData_append, strData_append] at hd
    simp at hd

theorem wfNum_unpack (q : ℚ) (h : wfNum q = true) : 0 ≤ q ∧ q.den ∣ 10 ^ decExp q := by
  unfold wfNum at h
  simp only [Bool.and_eq_true, decide_eq_true_eq] at h
  exact ⟨Rat.num_nonneg.mp h.1.1.1, h.2⟩

theorem wfRecord_unpack (r : Record) (h : wfRecord r = true) :
    wfNum r.fare_amount = true ∧ (∀ d, r.distance_km = some d → wfNum d = true) := by
  unfold wfRecord at h
  simp only [Bool.and_eq_true] at h
  refine ⟨h.1.1, ?_⟩
  intro d hd
  have h2 := h.1.2
  rw [hd] at h2
  simp only [Bool.and_eq_true] at h2
  exact h2.1

/-- Each cell row written for a record parses back to a record agreeing
with the original on every scalar field (the reason-tag collection is the
lossy one). -/
theorem parseRecordRow_cells (r : Record) (hwf : wfRecord r = true) :
    parseRecordRow (cellsOf r) = some (scalarProj r) := by
  obtain ⟨hfn, hdn⟩ := wfRecord_unpack r hwf
  obtain ⟨hf0, hfdvd⟩ := wfNum_unpack _ hfn
  have hfare : parseDecStr (formatDec r.fare_amount) = some r.fare_amount :=
    parseDec_formatDec _ hf0 hfdvd
  cases hdk : r.distance_km with
  | none =>
    have hdc : distCell r = "" := by simp [distCell, hdk]
    simp only [cellsOf, parseRecordRow, hfare, hdc, if_pos rfl]
    unfold scalarProj
    rw [hdk]
    simp
  | some d =>
    have hdw := hdn d hdk
    obtain ⟨hd0, hddvd⟩ := wfNum_unpack _ hdw
    have hdist : parseDecStr (formatDec d) = some d := parseDec_formatDec _ hd0 hddvd
    have hdc : distCell r = formatDec d := by simp [distCell, hdk]
    have hne := formatDec_ne_empty d
    simp only [cellsOf, parseRecordRow, hfare, hdc, if_neg hne, hdist, Option.map_some']
    unfold scalarProj
    rw [hdk]

/-! ## Claims C4 and C9 -/

/-- Claim C4 (counterexample): the CSV export's header row does not exclude
the reason-tag collection: parsing the export of one record yields a header
that contains `"primary_reasons"` and differs from the spec's
reason-tag-free header (only the on-screen dataframe drops that column,
src line 410; `record_to_csv_bytes` does not). -/
theorem csv_header_includes_reason_tags_cex :
    parseCSV (csvString [recB]) = some [csvHeader, cellsOf recB] ∧
    "primary_reasons" ∈ csvHeader ∧
    csvHeader ≠ specHeaderWithoutReasons := by
  refine ⟨?_, by decide, by decide⟩
  simpa using parseCSV_csvString [recB]

/-- Claim C4 (amended): for a non-empty record list the CSV export is the
UTF-8 encoding of a text whose parse is a header row of all 22 record
field names — the reason-tag column included — followed by exactly one
cell row per record in session insertion order. -/
theorem csv_export_structure (ls : List Record) (h : ls ≠ []) :
    record_to_csv_bytes ls = (csvString ls).toUTF8 ∧
    parseCSV (csvString ls) = some (csvHeader :: ls.map cellsOf) ∧
    csvHeader.length = 22 ∧ "primary_reasons" ∈ csvHeader := by
  refine ⟨?_, parseCSV_csvString ls, by decide, by decide⟩
  unfold record_to_csv_bytes
  rw [if_neg h]

/-- Witness for the amended C4 on a concrete two-record store. -/
theorem csv_export_structure_witness :
    record_to_csv_bytes [recB, recC] = (csvString [recB, recC]).toUTF8 ∧
    parseCSV (csvString [recB, recC]) = some (csvHeader :: [recB, recC].map cellsOf) ∧
    csvHeader.length = 22 ∧ "primary_reasons" ∈ csvHeader :=
  csv_export_structure [recB, recC] (by simp)

/-- Claim C9: writing a record list to the CSV export and parsing the CSV
back reproduces every scalar field of every record exactly — the parse
recovers the exact cell rows in order, and each row parses back to a
record agreeing with the original on all fields except the reason-tag
collection (the one lossy column). -/
theorem csv_scalar_round_trip (ls : List Record) (hwf : ∀ r ∈ ls, wfRecord r = true) :
    parseCSV (csvString ls) = some (csvHeader :: ls.map cellsOf) ∧
    ∀ r ∈ ls, parseRecordRow (cellsOf r) = some (scalarProj r) :=
  ⟨parseCSV_csvString ls, fun r hr => parseRecordRow_cells r (hwf r hr)⟩

/-- Witness for C9 on two concrete records exercising quoting (comma and
embedded quote), an embedded newline, two reason tags, and both absent and
present distances. -/
theorem csv_scalar_round_trip_witness :
    parseCSV (csvString [recX, recC]) = some (csvHeader :: [recX, recC].map cellsOf) ∧
    ∀ r ∈ [recX, recC], parseRecordRow (cellsOf r) = some (scalarProj r) := by
  apply csv_scalar_round_trip
  intro r hr
  simp only [List.mem_cons, List.not_mem_nil, or_false] at hr
  rcases hr with rfl | rfl
  · decide
  · decide
